import Mathlib

/-
Verification development for the nectar coupon-scraper pipeline
(src/scraper/scraper.js and src/scraper/runner.js).

The scraper source keeps several near-duplicate variants of the same
pipeline in one file.  The definitions below embed the functions the
testable properties talk about, with a comment naming the source lines
each definition was translated from.  Machine-level concerns (the
headless browser, timers, the network) are abstracted into explicit
inputs: a page is the list of attribute values the extraction code
reads from it, and a reveal-modal fetch is an explicit outcome value.
-/

namespace Nectar

/-- A coupon as built by scrapeCoupons: the object literal pushed into
basicCoupons (scraper.js lines 236-242 and 885-894).  The JS id counter
is a Nat; code is the string field that starts at the sentinel
"AUTOMATIC" (or null in the first variant, modelled as the value it has
after processing, which is always a string). -/
structure Coupon where
  id : Nat
  code : String
  discount : String
  terms : String
  verified : Bool
deriving DecidableEq, Repr

/-- A row handed to the persistence sink: the object literal built in
saveToDatabase (scraper.js lines 1161-1167). -/
structure DbRow where
  domain : String
  code : String
  discount : String
  terms : String
  verified : Bool
deriving DecidableEq, Repr

/-- The row saveToDatabase stores for a coupon (scraper.js lines 1161-1167). -/
def mkRow (domain : String) (c : Coupon) : DbRow :=
  { domain := domain, code := c.code, discount := c.discount,
    terms := c.terms, verified := c.verified }

/-- The key string saveToDatabase uses for its uniqueMap:
the template literal domain ++ ":" ++ code (scraper.js line 1159). -/
def rowKey (domain code : String) : String :=
  domain ++ ":" ++ code

/-- The verified-first sort of saveToDatabase (scraper.js lines 1146-1151).
The JS comparator returns 0 for equal verified flags and orders
verified=true first; Array.prototype.sort is stable, so the result is
exactly the stable partition: all verified coupons in input order,
followed by all unverified coupons in input order. -/
def sortedByVerified (coupons : List Coupon) : List Coupon :=
  coupons.filter (fun c => c.verified) ++ coupons.filter (fun c => !c.verified)

/-- One iteration of the forEach over sortedCoupons in saveToDatabase
(scraper.js lines 1154-1169).  The accumulator carries the uniqueMap as
its list of keys (insertion order) paired with the list of inserted
rows (Array.from(uniqueMap.values()) returns values in insertion
order).  Coupons whose code is the sentinel "AUTOMATIC" are skipped;
a coupon whose key is already present is skipped. -/
def dedupStep (domain : String) (acc : List String × List DbRow) (c : Coupon) :
    List String × List DbRow :=
  if c.code = "AUTOMATIC" then acc
  else if acc.1.contains (rowKey domain c.code) then acc
  else (acc.1 ++ [rowKey domain c.code], acc.2 ++ [mkRow domain c])

/-- The uniqueCoupons array computed by saveToDatabase (scraper.js lines
1141-1171): sort verified-first, then keep the first occurrence per
(domain, code) key, dropping sentinel codes. -/
def uniqueCoupons (domain : String) (coupons : List Coupon) : List DbRow :=
  ((sortedByVerified coupons).foldl (dedupStep domain) ([], [])).2

/-- Recursive restatement of the forEach loop of saveToDatabase, used to
reason by induction; proved equal to the foldl below. -/
def dedupAux (domain : String) : List Coupon → List String → List DbRow
  | [], _ => []
  | c :: cs, seen =>
    if c.code = "AUTOMATIC" then dedupAux domain cs seen
    else if seen.contains (rowKey domain c.code) then dedupAux domain cs seen
    else mkRow domain c :: dedupAux domain cs (seen ++ [rowKey domain c.code])

/-- Does the sink table already hold a row with this row's (domain, code)
conflict key?  Models the onConflict: ["domain", "code"] clause of the
upsert call (scraper.js lines 1196-1199). -/
def keyMem (table : List DbRow) (r : DbRow) : Bool :=
  table.any (fun t => t.domain == r.domain && t.code == r.code)

/-- The sink's treatment of a single incoming row under
upsert(..., { onConflict: ["domain", "code"], ignoreDuplicates: true })
(scraper.js lines 1196-1199): a row whose key is already present is
ignored, otherwise it is inserted. -/
def upsertRow (table : List DbRow) (r : DbRow) : List DbRow :=
  if keyMem table r then table else table ++ [r]

/-- The sink's batch upsert over a list of rows (scraper.js lines
1196-1199). -/
def upsert (table : List DbRow) (rows : List DbRow) : List DbRow :=
  rows.foldl upsertRow table

/-- At most one row per (domain, code) key: no two rows at distinct
positions agree on both domain and code. -/
def keyUnique (rows : List DbRow) : Prop :=
  rows.Pairwise (fun r s => ¬(r.domain = s.domain ∧ r.code = s.code))

/-- The filter applied by the first scrapeCoupons variant before
returning (scraper.js lines 354-361): keep coupons whose code is truthy
(non-empty, with a null code modelled as the empty string) and not the
sentinel. -/
def validCoupons (coupons : List Coupon) : List Coupon :=
  coupons.filter (fun c => c.code != "" && c.code != "AUTOMATIC")

/-- JS truthiness filter for a getAttribute / trimmed-textContent result:
null (modelled as none) and the empty string are falsy, every other
string passes through. -/
def truthyString (a : Option String) : Option String :=
  match a with
  | none => none
  | some s => if s != "" then some s else none

/-- JS short-circuit a || b over two getAttribute results (scraper.js
lines 871-873). -/
def jsOr (a b : Option String) : Option String :=
  match a with
  | none => b
  | some s => if s != "" then some s else b

/-- One offer card as seen by the extraction selectors of scrapeCoupons
(scraper.js lines 850-903): the trimmed .offer-title and
.offer-description text, the data-is-verified attribute, the data-code
and data-clipboard-text attributes of a .show-code child when one
exists, and the data-modal attribute. -/
structure OfferCard where
  title : Option String
  description : Option String
  isVerifiedAttr : Option String
  showCode : Option (Option String × Option String)
  modalAttr : Option String
deriving DecidableEq, Repr

/-- A raw offer after the single-page parse of scrapeCoupons: either a
direct code from the .show-code data attributes, or a reveal-modal URL,
or neither (scraper.js lines 855-904). -/
structure RawOffer where
  id : Nat
  discount : String
  terms : String
  verified : Bool
  directCode : Option String
  revealRef : Option String
deriving DecidableEq, Repr

/-- The per-card extraction of scrapeCoupons (scraper.js lines 855-904):
discount and terms default to "Discount" / "Terms apply" when the
sub-element is absent or its trimmed text is empty; verified compares
data-is-verified to the literal "True"; the direct code is the first
truthy of data-code and data-clipboard-text on a .show-code child; the
reveal reference is a truthy data-modal attribute. -/
def extractOffer (offerId : Nat) (card : OfferCard) : RawOffer :=
  { id := offerId,
    discount := (truthyString card.title).getD "Discount",
    terms := (truthyString card.description).getD "Terms apply",
    verified := card.isVerifiedAttr == some "True",
    directCode :=
      match card.showCode with
      | none => none
      | some (dataCode, clipboardText) => truthyString (jsOr dataCode clipboardText),
    revealRef := truthyString card.modalAttr }

/-- The full extraction pass over the offer cards of one merchant page,
with the id counter starting at 1 (scraper.js lines 847, 884). -/
def extractOffers (cards : List OfferCard) : List RawOffer :=
  cards.enum.map (fun p => extractOffer (p.1 + 1) p.2)

/-- Outcome of fetching one reveal modal: either the fetch/processing
threw (navigation error, selector timeout escalation), or the page was
read, in which case the two reads of the code input's trimmed value are
recorded (scraper.js lines 310-340: the value is read once and, when
that read yields nothing, once more after a 200 ms wait). -/
inductive ModalOutcome where
  | err (msg : String)
  | ok (firstValue : Option String) (retryValue : Option String)
deriving DecidableEq, Repr

/-- One read of the code input inside the modal (scraper.js lines
310-314): the trimmed value is kept only when it is non-empty and not
the sentinel "AUTOMATIC"; otherwise the read yields null. -/
def readCodeValue (v : Option String) : Option String :=
  match v with
  | none => none
  | some value => if value != "" && value != "AUTOMATIC" then some value else none

/-- Code resolution for one reveal modal (scraper.js lines 264-349 and
1010-1096): a successful read wins, the retry read is consulted next,
and every other situation, including a thrown error, degrades to the
sentinel "AUTOMATIC". -/
def processModal : ModalOutcome → String
  | .err _ => "AUTOMATIC"
  | .ok firstValue retryValue =>
    match readCodeValue firstValue with
    | some code => code
    | none =>
      match readCodeValue retryValue with
      | some code => code
      | none => "AUTOMATIC"

/-- The code a raw offer ends up with after modal processing, as a
function of the abstract modal fetcher (scraper.js lines 862-903 and
255-352): a direct code wins outright; an offer without a direct code
and without a reveal reference keeps the sentinel; otherwise the
reveal modal is fetched and processed. -/
def resolveOffer (resolve : String → ModalOutcome) (o : RawOffer) : Coupon :=
  { id := o.id,
    code :=
      match o.directCode with
      | some dataCode => dataCode
      | none =>
        match o.revealRef with
        | none => "AUTOMATIC"
        | some modalUrl => processModal (resolve modalUrl),
    discount := o.discount,
    terms := o.terms,
    verified := o.verified }

/-! Orchestrator model. -/

/-- The result of processing one domain inside a batch (scraper.js lines
1273-1294): scrapeCoupons returned a coupon list, or the processing
closure threw. -/
inductive DomainOutcome where
  | scraped (coupons : List Coupon)
  | threw (msg : String)
deriving DecidableEq, Repr

/-- Whether the batch closure reports the domain as a success
(scraper.js lines 1280-1292 and runner.js lines 82-94): success exactly
when the scraped coupon list is non-empty; a thrown error is a failure. -/
def outcomeSuccess : DomainOutcome → Bool
  | .scraped coupons => decide (coupons.length > 0)
  | .threw _ => false

/-- One step of the success/error tally (scraper.js lines 1296-1305). -/
def tallyStep (acc : Nat × Nat) (o : DomainOutcome) : Nat × Nat :=
  if outcomeSuccess o then (acc.1 + 1, acc.2) else (acc.1, acc.2 + 1)

/-- The (totalSuccessCount, totalErrorCount) pair accumulated over all
processed domains of a run (scraper.js lines 1222-1223, 1296-1305). -/
def tally (outcomes : List DomainOutcome) : Nat × Nat :=
  outcomes.foldl tallyStep (0, 0)

/-- The letter loop of main / runPartialScraper (scraper.js lines
1251-1328, runner.js lines 45-133): a letter whose domain list is empty
is skipped and contributes nothing to the tally; otherwise every domain
of the letter is processed and tallied. -/
def letterLoop (letters : List (List String)) (scrape : String → DomainOutcome) : Nat × Nat :=
  letters.foldl
    (fun acc domains =>
      if domains.length = 0 then acc
      else (domains.map scrape).foldl tallyStep acc)
    (0, 0)

/-- The final exit decision of main (scraper.js lines 1336-1339, and
identically lines 591-594): exit code 1 exactly when zero domains
succeeded. -/
def mainExitCode (totalSuccessCount : Nat) : Nat :=
  if totalSuccessCount = 0 then 1 else 0

/-- The final exit decision of runPartialScraper (runner.js lines
174-177): exit code 1 exactly when zero domains succeeded and at least
one domain failed. -/
def runnerExitCode (totalSuccessCount totalErrorCount : Nat) : Nat :=
  if totalSuccessCount = 0 ∧ totalErrorCount > 0 then 1 else 0

/-! Domain listing model. -/

/-- First-occurrence string replacement, the semantics of the JS
String.prototype.replace call with a string pattern
(scraper.js line 750). -/
def replaceFirstAux (pat repl : List Char) : List Char → List Char
  | [] => []
  | c :: rest =>
    if pat.isPrefixOf (c :: rest) then repl ++ (c :: rest).drop pat.length
    else c :: replaceFirstAux pat repl rest

/-- String version of the first-occurrence replacement. -/
def replaceFirst (s pat repl : String) : String :=
  ⟨replaceFirstAux pat.data repl.data s.data⟩

/-- The domain extraction of scrapeDomains over the href attributes of
the anchors matched by the store-link selector (scraper.js lines
740-758): for every anchor, a truthy href has its "/site/" path marker
removed, and a truthy remainder is pushed onto the list.  No
de-duplication is performed. -/
def scrapeDomainsStep (domainList : List String) (href? : Option String) : List String :=
  match truthyString href? with
  | none => domainList
  | some href =>
    let domain := replaceFirst href "/site/" ""
    if domain != "" then domainList ++ [domain] else domainList

def scrapeDomainsExtract (storeLinks : List (Option String)) : List String :=
  storeLinks.foldl scrapeDomainsStep []

/-- The full scrapeDomains call (scraper.js lines 680-768): a render
failure of any kind is caught and yields the empty list; a successful
render yields the extraction over the page's store links. -/
def scrapeDomainsRun (render : Except String (List (Option String))) : List String :=
  match render with
  | .error _ => []
  | .ok storeLinks => scrapeDomainsExtract storeLinks

/-! Domain retry model. -/

/-- An observable event of the scrapeCoupons retry loop: an attempt at a
given retryCount, or a backoff sleep of the given milliseconds. -/
inductive RetryEvent where
  | attempt (retryCount : Nat)
  | backoff (ms : Nat)
deriving DecidableEq, Repr

/-- The event trace of scrapeCoupons for a domain whose render always
fails (scraper.js lines 1123-1138, and identically lines 362-376): the
attempt at the current retryCount fails; while retryCount <
domainRetries the code sleeps a fixed 2000 ms and calls itself with
retryCount + 1; otherwise it gives up. -/
def alwaysFailTrace (domainRetries retryCount : Nat) : List RetryEvent :=
  RetryEvent.attempt retryCount ::
    (if h : retryCount < domainRetries then
      RetryEvent.backoff 2000 :: alwaysFailTrace domainRetries (retryCount + 1)
    else [])
termination_by domainRetries - retryCount
decreasing_by omega

/-- The value scrapeCoupons returns for a domain whose render always
fails (scraper.js lines 1123-1138): after the retries are exhausted the
catch block returns the empty coupon list. -/
def alwaysFailResult (domainRetries retryCount : Nat) : List Coupon :=
  if h : retryCount < domainRetries then alwaysFailResult domainRetries (retryCount + 1)
  else []
termination_by domainRetries - retryCount
decreasing_by omega

def isAttempt : RetryEvent → Bool
  | .attempt _ => true
  | .backoff _ => false

/-- Number of whole-domain attempts in a retry trace. -/
def attemptCount (trace : List RetryEvent) : Nat :=
  (trace.filter isAttempt).length

/-- Number of backoff sleeps in a retry trace. -/
def backoffCount (trace : List RetryEvent) : Nat :=
  (trace.filter (fun e => !isAttempt e)).length

/-! Helper lemmas about the de-duplication fold. -/

theorem string_append_left_cancel {p a b : String} (h : p ++ a = p ++ b) : a = b := by
  have hd : (p ++ a).data = (p ++ b).data := congrArg String.data h
  rw [String.data_append, String.data_append] at hd
  exact String.ext (List.append_cancel_left hd)

theorem rowKey_inj {domain a b : String} (h : rowKey domain a = rowKey domain b) : a = b :=
  string_append_left_cancel (p := domain ++ ":") h

theorem contains_iff_mem (l : List String) (a : String) : l.contains a = true ↔ a ∈ l :=
  List.elem_iff

/-- The forEach fold of saveToDatabase agrees with its recursive
restatement. -/
theorem foldl_dedupStep_snd (domain : String) :
    ∀ (l : List Coupon) (seen : List String) (rows : List DbRow),
      (l.foldl (dedupStep domain) (seen, rows)).2 = rows ++ dedupAux domain l seen := by
  intro l
  induction l with
  | nil => intro seen rows; simp [dedupAux]
  | cons c cs ih =>
    intro seen rows
    by_cases h1 : c.code = "AUTOMATIC"
    · simp [List.foldl_cons, dedupStep, dedupAux, h1, ih]
    · by_cases h2 : seen.contains (rowKey domain c.code) = true
      · have hm : rowKey domain c.code ∈ seen := (contains_iff_mem _ _).mp h2
        simp [List.foldl_cons, dedupStep, dedupAux, h1, h2, hm, ih]
      · have hm : rowKey domain c.code ∉ seen := fun h => h2 ((contains_iff_mem _ _).mpr h)
        simp [List.foldl_cons, dedupStep, dedupAux, h1, h2, hm, ih]

theorem uniqueCoupons_eq_dedupAux (domain : String) (coupons : List Coupon) :
    uniqueCoupons domain coupons = dedupAux domain (sortedByVerified coupons) [] := by
  simpa [uniqueCoupons] using
    foldl_dedupStep_snd domain (sortedByVerified coupons) [] []

/-- Every row built by the de-duplication loop carries the call's domain,
a non-sentinel code, and the fields of some input coupon. -/
theorem dedupAux_mem_shape (domain : String) :
    ∀ (l : List Coupon) (seen : List String) (r : DbRow), r ∈ dedupAux domain l seen →
      r.code ≠ "AUTOMATIC" ∧ r.domain = domain ∧ ∃ c ∈ l, r = mkRow domain c := by
  intro l
  induction l with
  | nil => intro seen r hr; simp [dedupAux] at hr
  | cons c cs ih =>
    intro seen r hr
    by_cases h1 : c.code = "AUTOMATIC"
    · rw [dedupAux, if_pos h1] at hr
      obtain ⟨hcode, hdom, c', hc', hrc⟩ := ih seen r hr
      exact ⟨hcode, hdom, c', List.mem_cons_of_mem _ hc', hrc⟩
    · by_cases h2 : seen.contains (rowKey domain c.code) = true
      · rw [dedupAux, if_neg h1, if_pos h2] at hr
        obtain ⟨hcode, hdom, c', hc', hrc⟩ := ih seen r hr
        exact ⟨hcode, hdom, c', List.mem_cons_of_mem _ hc', hrc⟩
      · rw [dedupAux, if_neg h1, if_neg h2] at hr
        rcases List.mem_cons.mp hr with hr | hr
        · subst hr
          exact ⟨h1, rfl, c, List.mem_cons_self _ _, rfl⟩
        · obtain ⟨hcode, hdom, c', hc', hrc⟩ := ih _ r hr
          exact ⟨hcode, hdom, c', List.mem_cons_of_mem _ hc', hrc⟩

/-- A row emitted by the loop has a key the uniqueMap had not seen. -/
theorem dedupAux_key_fresh (domain : String) :
    ∀ (l : List Coupon) (seen : List String) (r : DbRow), r ∈ dedupAux domain l seen →
      rowKey domain r.code ∉ seen := by
  intro l
  induction l with
  | nil => intro seen r hr; simp [dedupAux] at hr
  | cons c cs ih =>
    intro seen r hr
    by_cases h1 : c.code = "AUTOMATIC"
    · rw [dedupAux, if_pos h1] at hr
      exact ih seen r hr
    · by_cases h2 : seen.contains (rowKey domain c.code) = true
      · rw [dedupAux, if_neg h1, if_pos h2] at hr
        exact ih seen r hr
      · rw [dedupAux, if_neg h1, if_neg h2] at hr
        rcases List.mem_cons.mp hr with hr | hr
        · subst hr
          intro hmem
          exact h2 ((contains_iff_mem _ _).mpr hmem)
        · intro hmem
          exact ih _ r hr (List.mem_append_left _ hmem)

/-- No two rows produced by the de-duplication loop share a code. -/
theorem dedupAux_pairwise_code (domain : String) :
    ∀ (l : List Coupon) (seen : List String),
      (dedupAux domain l seen).Pairwise (fun r s => r.code ≠ s.code) := by
  intro l
  induction l with
  | nil => intro seen; simp [dedupAux]
  | cons c cs ih =>
    intro seen
    by_cases h1 : c.code = "AUTOMATIC"
    · rw [dedupAux, if_pos h1]; exact ih seen
    · by_cases h2 : seen.contains (rowKey domain c.code) = true
      · rw [dedupAux, if_neg h1, if_pos h2]; exact ih seen
      · rw [dedupAux, if_neg h1, if_neg h2]
        refine List.Pairwise.cons ?_ (ih _)
        intro s hs heq
        have hfresh := dedupAux_key_fresh domain cs _ s hs
        apply hfresh
        apply List.mem_append_right
        simp [mkRow] at heq
        simp [heq]

/-- The row kept for a code is built from the first coupon of the
processed list carrying that code. -/
theorem dedupAux_first_occurrence (domain : String) :
    ∀ (l : List Coupon) (seen : List String) (r : DbRow), r ∈ dedupAux domain l seen →
      ∃ c, l.find? (fun c => c.code == r.code) = some c ∧ r = mkRow domain c := by
  intro l
  induction l with
  | nil => intro seen r hr; simp [dedupAux] at hr
  | cons c cs ih =>
    intro seen r hr
    by_cases h1 : c.code = "AUTOMATIC"
    · rw [dedupAux, if_pos h1] at hr
      obtain ⟨c', hf, hrc⟩ := ih seen r hr
      have hcode : r.code ≠ "AUTOMATIC" := (dedupAux_mem_shape domain cs seen r hr).1
      have hpred : (c.code == r.code) = false := by
        simp only [beq_eq_false_iff_ne, ne_eq, h1]
        intro h; exact hcode h.symm
      refine ⟨c', ?_, hrc⟩
      rw [List.find?_cons, hpred]; exact hf
    · by_cases h2 : seen.contains (rowKey domain c.code) = true
      · rw [dedupAux, if_neg h1, if_pos h2] at hr
        obtain ⟨c', hf, hrc⟩ := ih seen r hr
        have hfresh := dedupAux_key_fresh domain cs seen r hr
        have hpred : (c.code == r.code) = false := by
          simp only [beq_eq_false_iff_ne, ne_eq]
          intro h
          exact hfresh (h ▸ (contains_iff_mem _ _).mp h2)
        refine ⟨c', ?_, hrc⟩
        rw [List.find?_cons, hpred]; exact hf
      · rw [dedupAux, if_neg h1, if_neg h2] at hr
        rcases List.mem_cons.mp hr with hr | hr
        · subst hr
          refine ⟨c, ?_, rfl⟩
          have : (c.code == (mkRow domain c).code) = true := by simp [mkRow]
          rw [List.find?_cons, this]
        · obtain ⟨c', hf, hrc⟩ := ih _ r hr
          have hfresh := dedupAux_key_fresh domain cs _ r hr
          have hpred : (c.code == r.code) = false := by
            simp only [beq_eq_false_iff_ne, ne_eq]
            intro h
            exact hfresh (List.mem_append_right _ (by simp [h]))
          refine ⟨c', ?_, hrc⟩
          rw [List.find?_cons, hpred]; exact hf

/-- Every non-sentinel input coupon whose key the uniqueMap has not seen
contributes its code to the output. -/
theorem dedupAux_complete (domain : String) :
    ∀ (l : List Coupon) (seen : List String) (c : Coupon), c ∈ l →
      c.code ≠ "AUTOMATIC" → rowKey domain c.code ∉ seen →
      ∃ r ∈ dedupAux domain l seen, r.code = c.code := by
  intro l
  induction l with
  | nil => intro seen c hc; simp at hc
  | cons h cs ih =>
    intro seen c hc hcode hseen
    by_cases h1 : h.code = "AUTOMATIC"
    · rw [dedupAux, if_pos h1]
      have : c ∈ cs := by
        rcases List.mem_cons.mp hc with rfl | hmem
        · exact absurd h1 hcode
        · exact hmem
      exact ih seen c this hcode hseen
    · by_cases h2 : seen.contains (rowKey domain h.code) = true
      · rw [dedupAux, if_neg h1, if_pos h2]
        have : c ∈ cs := by
          rcases List.mem_cons.mp hc with rfl | hmem
          · exact absurd ((contains_iff_mem _ _).mp h2) hseen
          · exact hmem
        exact ih seen c this hcode hseen
      · rw [dedupAux, if_neg h1, if_neg h2]
        by_cases hcc : h.code = c.code
        · exact ⟨mkRow domain h, List.mem_cons_self _ _, hcc⟩
        · have hmem : c ∈ cs := by
            rcases List.mem_cons.mp hc with rfl | hmem
            · exact absurd rfl hcc
            · exact hmem
          have hseen' : rowKey domain c.code ∉ seen ++ [rowKey domain h.code] := by
            intro hin
            rcases List.mem_append.mp hin with hin | hin
            · exact hseen hin
            · have : rowKey domain c.code = rowKey domain h.code := by simpa using hin
              exact hcc (rowKey_inj this).symm
          obtain ⟨r, hr, hrc⟩ := ih _ c hmem hcode hseen'
          exact ⟨r, List.mem_cons_of_mem _ hr, hrc⟩

/-! Helper lemmas about the sink upsert. -/

theorem keyMem_upsertRow_mono {t : List DbRow} {r : DbRow} (s : DbRow)
    (h : keyMem t r = true) : keyMem (upsertRow t s) r = true := by
  unfold upsertRow
  split
  · exact h
  · unfold keyMem at h ⊢
    simp [List.any_append, h]

theorem keyMem_upsertRow_self (t : List DbRow) (r : DbRow) :
    keyMem (upsertRow t r) r = true := by
  unfold upsertRow
  split
  · assumption
  · unfold keyMem
    simp [List.any_append]

theorem keyMem_upsert_mono {t : List DbRow} {r : DbRow} (rows : List DbRow)
    (h : keyMem t r = true) : keyMem (upsert t rows) r = true := by
  induction rows generalizing t with
  | nil => exact h
  | cons s rest ih => exact ih (keyMem_upsertRow_mono s h)

theorem keyMem_upsert_of_mem {t rows : List DbRow} {r : DbRow} (h : r ∈ rows) :
    keyMem (upsert t rows) r = true := by
  induction rows generalizing t with
  | nil => simp at h
  | cons s rest ih =>
    rcases List.mem_cons.mp h with rfl | hmem
    · exact keyMem_upsert_mono rest (keyMem_upsertRow_self t r)
    · exact ih hmem

theorem upsert_of_all_keyMem {t : List DbRow} :
    ∀ {rows : List DbRow}, (∀ r ∈ rows, keyMem t r = true) → upsert t rows = t := by
  intro rows
  induction rows with
  | nil => intro _; rfl
  | cons s rest ih =>
    intro h
    have hs : upsertRow t s = t := by
      unfold upsertRow
      rw [if_pos (h s (List.mem_cons_self _ _))]
    show upsert (upsertRow t s) rest = t
    rw [hs]
    exact ih (fun r hr => h r (List.mem_cons_of_mem _ hr))

/-- Re-submitting the same rows to the sink is a no-op: every key is
already present after the first upsert, and ignoreDuplicates skips it. -/
theorem upsert_idempotent (t rows : List DbRow) :
    upsert (upsert t rows) rows = upsert t rows :=
  upsert_of_all_keyMem (fun _ hr => keyMem_upsert_of_mem hr)

theorem upsertRow_keyUnique {t : List DbRow} (r : DbRow) (h : keyUnique t) :
    keyUnique (upsertRow t r) := by
  unfold upsertRow
  split
  · exact h
  · next hmem =>
    unfold keyUnique
    rw [List.pairwise_append]
    refine ⟨h, List.pairwise_singleton _ _, ?_⟩
    intro a ha b hb
    have hb' : b = r := by simpa using hb
    subst hb'
    intro ⟨hd, hc⟩
    unfold keyMem at hmem
    exact hmem (List.any_eq_true.mpr ⟨a, ha, by simp [hd, hc]⟩)

theorem upsert_keyUnique {t : List DbRow} (rows : List DbRow) (h : keyUnique t) :
    keyUnique (upsert t rows) := by
  induction rows generalizing t with
  | nil => exact h
  | cons s rest ih => exact ih (upsertRow_keyUnique s h)

/-- The de-duplicated rows saveToDatabase sends to the sink hold at most
one row per (domain, code) key. -/
theorem uniqueCoupons_keyUnique (domain : String) (coupons : List Coupon) :
    keyUnique (uniqueCoupons domain coupons) := by
  rw [uniqueCoupons_eq_dedupAux]
  exact (dedupAux_pairwise_code domain _ []).imp (fun h ⟨_, hc⟩ => h hc)

theorem mem_sortedByVerified {c : Coupon} {coupons : List Coupon} :
    c ∈ sortedByVerified coupons ↔ c ∈ coupons := by
  by_cases h : c.verified <;> simp [sortedByVerified, List.mem_append, List.mem_filter, h]

/-- Every row saveToDatabase emits carries the call's domain, a
non-sentinel code, and the fields of some input coupon. -/
theorem uniqueCoupons_mem_shape {domain : String} {coupons : List Coupon} {r : DbRow}
    (hr : r ∈ uniqueCoupons domain coupons) :
    r.code ≠ "AUTOMATIC" ∧ r.domain = domain ∧ ∃ c ∈ coupons, r = mkRow domain c := by
  rw [uniqueCoupons_eq_dedupAux] at hr
  obtain ⟨hcode, hdom, c, hc, hrc⟩ := dedupAux_mem_shape domain _ [] r hr
  exact ⟨hcode, hdom, c, mem_sortedByVerified.mp hc, hrc⟩

/-- Every input coupon with a real code is represented in the emitted
rows by a row with that code. -/
theorem uniqueCoupons_complete {domain : String} {coupons : List Coupon} {c : Coupon}
    (hc : c ∈ coupons) (hcode : c.code ≠ "AUTOMATIC") :
    ∃ r ∈ uniqueCoupons domain coupons, r.code = c.code := by
  rw [uniqueCoupons_eq_dedupAux]
  exact dedupAux_complete domain _ [] c (mem_sortedByVerified.mpr hc) hcode (by simp)

/-! Helper lemmas about offer resolution. -/

theorem truthyString_ne_empty {a : Option String} {s : String}
    (h : truthyString a = some s) : s ≠ "" := by
  match a with
  | none => simp [truthyString] at h
  | some t =>
    simp only [truthyString] at h
    split at h
    · next ht => cases h; simpa using ht
    · cases h

theorem readCodeValue_good {v : Option String} {code : String}
    (h : readCodeValue v = some code) : code ≠ "" ∧ code ≠ "AUTOMATIC" := by
  match v with
  | none => simp [readCodeValue] at h
  | some value =>
    simp only [readCodeValue] at h
    split at h
    · next hv => cases h; simpa using hv
    · cases h

/-- An erroring modal fetch degrades to the sentinel. -/
theorem processModal_err (msg : String) : processModal (ModalOutcome.err msg) = "AUTOMATIC" :=
  rfl

/-- Modal processing never produces the empty string: it yields either
the sentinel or a non-empty, non-sentinel read value. -/
theorem processModal_ne_empty (m : ModalOutcome) : processModal m ≠ "" := by
  match m with
  | .err msg => simp [processModal]
  | .ok v₁ v₂ =>
    simp only [processModal]
    cases h1 : readCodeValue v₁ with
    | some code => exact (readCodeValue_good h1).1
    | none =>
      cases h2 : readCodeValue v₂ with
      | some code => exact (readCodeValue_good h2).1
      | none => simp

/-- A resolved offer's code is never the empty string, provided any
direct code it carries is non-empty (which the extraction's truthiness
check guarantees). -/
theorem resolveOffer_code_ne_empty {resolve : String → ModalOutcome} {o : RawOffer}
    (h : ∀ d, o.directCode = some d → d ≠ "") :
    (resolveOffer resolve o).code ≠ "" := by
  simp only [resolveOffer]
  cases hdc : o.directCode with
  | some d => exact h d hdc
  | none =>
    cases href : o.revealRef with
    | none => simp
    | some url => exact processModal_ne_empty (resolve url)

/-- The extraction's truthiness check on the data attributes guarantees
that a direct code is never the empty string. -/
theorem extractOffers_directCode_ne_empty {cards : List OfferCard} {o : RawOffer}
    (ho : o ∈ extractOffers cards) {d : String} (hd : o.directCode = some d) : d ≠ "" := by
  obtain ⟨p, _, rfl⟩ := List.mem_map.mp ho
  simp only [extractOffer] at hd
  match hsc : p.2.showCode with
  | none => rw [hsc] at hd; cases hd
  | some pair =>
    rw [hsc] at hd
    exact truthyString_ne_empty hd

/-- Case analysis for a resolved offer's code: it is the direct code,
the sentinel, or the processed reveal modal value. -/
theorem resolveOffer_code_cases (resolve : String → ModalOutcome) (o : RawOffer) :
    o.directCode = some (resolveOffer resolve o).code ∨
    (resolveOffer resolve o).code = "AUTOMATIC" ∨
    (∃ url, o.revealRef = some url ∧
      processModal (resolve url) = (resolveOffer resolve o).code) := by
  simp only [resolveOffer]
  cases hdc : o.directCode with
  | some d => exact Or.inl rfl
  | none =>
    cases href : o.revealRef with
    | none => exact Or.inr (Or.inl rfl)
    | some url => exact Or.inr (Or.inr ⟨url, rfl, rfl⟩)

/-! Helper lemmas about the tally and the letter loop. -/

theorem foldl_tallyStep (l : List DomainOutcome) :
    ∀ a b : Nat, l.foldl tallyStep (a, b) =
      (a + (l.filter (fun o => outcomeSuccess o)).length,
       b + (l.filter (fun o => !outcomeSuccess o)).length) := by
  induction l with
  | nil => intro a b; simp
  | cons o rest ih =>
    intro a b
    by_cases h : outcomeSuccess o = true
    · simp only [List.foldl_cons, tallyStep, h, if_true, ih, List.filter_cons]
      simp [h]
      omega
    · simp only [List.foldl_cons, tallyStep, h, if_false, ih, List.filter_cons]
      simp [h]
      omega

theorem tally_eq (outcomes : List DomainOutcome) :
    tally outcomes =
      ((outcomes.filter (fun o => outcomeSuccess o)).length,
       (outcomes.filter (fun o => !outcomeSuccess o)).length) := by
  simpa [tally] using foldl_tallyStep outcomes 0 0

/-! Helper lemmas about the retry loop. -/

theorem alwaysFailTrace_spec (domainRetries : Nat) :
    ∀ k retryCount, domainRetries - retryCount = k →
      attemptCount (alwaysFailTrace domainRetries retryCount) = k + 1 ∧
      backoffCount (alwaysFailTrace domainRetries retryCount) = k ∧
      (∀ e ∈ alwaysFailTrace domainRetries retryCount,
        ∀ ms, e = RetryEvent.backoff ms → ms = 2000) := by
  intro k
  induction k with
  | zero =>
    intro rc hk
    have h : ¬ rc < domainRetries := by omega
    rw [alwaysFailTrace]
    simp [h, attemptCount, backoffCount, isAttempt]
  | succ k ih =>
    intro rc hk
    have h : rc < domainRetries := by omega
    obtain ⟨iha, ihb, ihm⟩ := ih (rc + 1) (by omega)
    rw [alwaysFailTrace]
    refine ⟨?_, ?_, ?_⟩
    · simp [h, attemptCount, isAttempt, List.filter_cons] at iha ⊢
      omega
    · simp [h, backoffCount, isAttempt, List.filter_cons] at ihb ⊢
      omega
    · intro e he ms hems
      simp only [h, dif_pos, List.mem_cons] at he
      rcases he with rfl | rfl | he
      · cases hems
      · cases hems; rfl
      · exact ihm e he ms hems

theorem alwaysFailResult_nil (domainRetries : Nat) :
    ∀ k retryCount, domainRetries - retryCount = k →
      alwaysFailResult domainRetries retryCount = [] := by
  intro k
  induction k with
  | zero =>
    intro rc hk
    have h : ¬ rc < domainRetries := by omega
    rw [alwaysFailResult]
    simp [h]
  | succ k ih =>
    intro rc hk
    have h : rc < domainRetries := by omega
    rw [alwaysFailResult]
    simpa [h] using ih (rc + 1) (by omega)

/-! Helper lemmas about domain listing. -/

/-- Recursive restatement of the store-link forEach of scrapeDomains. -/
def scrapeDomainsAux : List (Option String) → List String
  | [] => []
  | href? :: rest =>
    match truthyString href? with
    | none => scrapeDomainsAux rest
    | some href =>
      if replaceFirst href "/site/" "" != "" then
        replaceFirst href "/site/" "" :: scrapeDomainsAux rest
      else scrapeDomainsAux rest

theorem scrapeDomainsExtract_eq_aux :
    ∀ (storeLinks : List (Option String)) (acc : List String),
      storeLinks.foldl scrapeDomainsStep acc = acc ++ scrapeDomainsAux storeLinks := by
  intro storeLinks
  induction storeLinks with
  | nil => intro acc; simp [scrapeDomainsAux]
  | cons href? rest ih =>
    intro acc
    rw [List.foldl_cons]
    cases ht : truthyString href? with
    | none =>
      have harg : scrapeDomainsStep acc href? = acc := by
        simp [scrapeDomainsStep, ht]
      have haux : scrapeDomainsAux (href? :: rest) = scrapeDomainsAux rest := by
        simp only [scrapeDomainsAux, ht]
      rw [harg, haux]
      exact ih acc
    | some href =>
      by_cases hd : (replaceFirst href "/site/" "" != "") = true
      · have harg : scrapeDomainsStep acc href? = acc ++ [replaceFirst href "/site/" ""] := by
          simp only [scrapeDomainsStep, ht]
          rw [if_pos hd]
        have haux : scrapeDomainsAux (href? :: rest) =
            replaceFirst href "/site/" "" :: scrapeDomainsAux rest := by
          simp only [scrapeDomainsAux, ht]
          rw [if_pos hd]
        rw [harg, haux, ih]
        simp
      · have harg : scrapeDomainsStep acc href? = acc := by
          simp only [scrapeDomainsStep, ht]
          rw [if_neg hd]
        have haux : scrapeDomainsAux (href? :: rest) = scrapeDomainsAux rest := by
          simp only [scrapeDomainsAux, ht]
          rw [if_neg hd]
        rw [harg, haux]
        exact ih acc

theorem mem_scrapeDomainsAux {storeLinks : List (Option String)} {d : String}
    (hd : d ∈ scrapeDomainsAux storeLinks) :
    d ≠ "" ∧ ∃ href, some href ∈ storeLinks ∧ d = replaceFirst href "/site/" "" := by
  induction storeLinks with
  | nil => simp [scrapeDomainsAux] at hd
  | cons href? rest ih =>
    rw [scrapeDomainsAux] at hd
    revert hd
    cases ht : truthyString href? with
    | none =>
      intro hd
      obtain ⟨hne, href, hmem, hrep⟩ := ih hd
      exact ⟨hne, href, List.mem_cons_of_mem _ hmem, hrep⟩
    | some href =>
      simp only []
      by_cases hne : (replaceFirst href "/site/" "" != "") = true
      · rw [if_pos hne]
        intro hd
        rcases List.mem_cons.mp hd with rfl | hd
        · refine ⟨by simpa using hne, href, ?_, rfl⟩
          have : href? = some href := by
            match href? with
            | none => simp [truthyString] at ht
            | some s =>
              simp only [truthyString] at ht
              split at ht
              · cases ht; rfl
              · cases ht
          rw [this]; exact List.mem_cons_self _ _
        · obtain ⟨hne', href', hmem, hrep⟩ := ih hd
          exact ⟨hne', href', List.mem_cons_of_mem _ hmem, hrep⟩
      · rw [if_neg hne]
        intro hd
        obtain ⟨hne', href', hmem, hrep⟩ := ih hd
        exact ⟨hne', href', List.mem_cons_of_mem _ hmem, hrep⟩

theorem scrapeDomainsExtract_eq (storeLinks : List (Option String)) :
    scrapeDomainsExtract storeLinks = scrapeDomainsAux storeLinks := by
  simpa [scrapeDomainsExtract] using scrapeDomainsExtract_eq_aux storeLinks []

/-! Claim theorems. -/

/-- C1: For every list of coupons passed through the
de-duplication/normalization step (saveToDatabase), no record handed to
the persistence sink has a code equal to the sentinel placeholder
string "AUTOMATIC" or equal to the empty string.  The first conjunct
covers the variant that filters before calling the sink (the
validCoupons filter of scrapeCoupons); the second covers the pipeline
variant whose saveToDatabase drops sentinel codes itself: there the
coupon lists passed to saveToDatabase are scrapeCoupons results, whose
extraction and modal resolution never produce an empty code, so the
emitted rows carry neither the sentinel nor the empty string. -/
theorem C1_sink_code_never_sentinel_or_empty
    (domain : String) (cards : List OfferCard) (resolve : String → ModalOutcome)
    (coupons : List Coupon) :
    (∀ c ∈ validCoupons coupons, c.code ≠ "AUTOMATIC" ∧ c.code ≠ "") ∧
    (∀ r ∈ uniqueCoupons domain ((extractOffers cards).map (resolveOffer resolve)),
      r.code ≠ "AUTOMATIC" ∧ r.code ≠ "") := by
  constructor
  · intro c hc
    have hcond := (List.mem_filter.mp hc).2
    simp only [Bool.and_eq_true, bne_iff_ne, ne_eq] at hcond
    exact ⟨hcond.2, hcond.1⟩
  · intro r hr
    obtain ⟨hcode, hdom, c, hc, hrc⟩ := uniqueCoupons_mem_shape hr
    obtain ⟨o, ho, rfl⟩ := List.mem_map.mp hc
    refine ⟨hcode, ?_⟩
    rw [hrc]
    exact resolveOffer_code_ne_empty (fun d hd => extractOffers_directCode_ne_empty ho hd)

/-- Witness for C1: a concrete valid coupon passes the filter, and a
concrete resolved record emitted for the sink has a real code. -/
theorem C1_sink_code_never_sentinel_or_empty_witness :
    ((⟨1, "SAVE20", "20% off", "Min spend $50", true⟩ : Coupon).code ≠ "AUTOMATIC" ∧
      (⟨1, "SAVE20", "20% off", "Min spend $50", true⟩ : Coupon).code ≠ "") ∧
    ((⟨"acme.com", "SAVE20", "20% off", "Min spend $50", true⟩ : DbRow).code ≠ "AUTOMATIC" ∧
      (⟨"acme.com", "SAVE20", "20% off", "Min spend $50", true⟩ : DbRow).code ≠ "") := by
  constructor
  · exact (C1_sink_code_never_sentinel_or_empty "acme.com" []
      (fun _ => ModalOutcome.err "unused")
      [⟨1, "SAVE20", "20% off", "Min spend $50", true⟩]).1 _ (by decide)
  · exact (C1_sink_code_never_sentinel_or_empty "acme.com"
      [⟨some "20% off", some "Min spend $50", some "True", none, some "/modal/123"⟩]
      (fun _ => ModalOutcome.ok (some "SAVE20") none) []).2 _ (by decide)

/-- C2: for every domain and input coupon list the de-duplication step
produces at most one record per (domain, code) key, and running it plus
the sink twice on the same input yields no duplicate persisted rows for
the same key — the sink upsert conflicts on (domain, code) with
ignoreDuplicates, so the second submission is a no-op. -/
theorem C2_dedup_key_unique_and_idempotent
    (domain : String) (coupons : List Coupon) (table : List DbRow)
    (htable : keyUnique table) :
    keyUnique (uniqueCoupons domain coupons) ∧
    upsert (upsert table (uniqueCoupons domain coupons)) (uniqueCoupons domain coupons) =
      upsert table (uniqueCoupons domain coupons) ∧
    keyUnique (upsert (upsert table (uniqueCoupons domain coupons))
      (uniqueCoupons domain coupons)) := by
  refine ⟨uniqueCoupons_keyUnique domain coupons, upsert_idempotent _ _, ?_⟩
  rw [upsert_idempotent]
  exact upsert_keyUnique _ htable

/-- Witness for C2 at a concrete colliding input and an empty table. -/
theorem C2_dedup_key_unique_and_idempotent_witness :
    keyUnique (uniqueCoupons "acme.com"
      [⟨1, "SAVE20", "10% off", "a", false⟩, ⟨2, "SAVE20", "20% off", "b", true⟩]) ∧
    upsert (upsert [] (uniqueCoupons "acme.com"
        [⟨1, "SAVE20", "10% off", "a", false⟩, ⟨2, "SAVE20", "20% off", "b", true⟩]))
      (uniqueCoupons "acme.com"
        [⟨1, "SAVE20", "10% off", "a", false⟩, ⟨2, "SAVE20", "20% off", "b", true⟩]) =
      upsert [] (uniqueCoupons "acme.com"
        [⟨1, "SAVE20", "10% off", "a", false⟩, ⟨2, "SAVE20", "20% off", "b", true⟩]) ∧
    keyUnique (upsert (upsert [] (uniqueCoupons "acme.com"
        [⟨1, "SAVE20", "10% off", "a", false⟩, ⟨2, "SAVE20", "20% off", "b", true⟩]))
      (uniqueCoupons "acme.com"
        [⟨1, "SAVE20", "10% off", "a", false⟩, ⟨2, "SAVE20", "20% off", "b", true⟩])) :=
  C2_dedup_key_unique_and_idempotent "acme.com"
    [⟨1, "SAVE20", "10% off", "a", false⟩, ⟨2, "SAVE20", "20% off", "b", true⟩] []
    (by simp [keyUnique])

/-- C3 counterexample: an offer that does carry a non-empty reveal
reference, but whose reveal resolution errors, is nevertheless excluded
from the final record set.  So it is false that exactly the offers
lacking both a direct code and a non-empty reveal reference are
excluded and that every other offer yields a record. -/
theorem C3_counterexample :
    (⟨1, "20% off", "Min spend $50", true, none, some "/modal/123"⟩ : RawOffer).directCode
        = none ∧
    (⟨1, "20% off", "Min spend $50", true, none, some "/modal/123"⟩ : RawOffer).revealRef
        = some "/modal/123" ∧
    "/modal/123" ≠ "" ∧
    uniqueCoupons "acme.com"
      ([(⟨1, "20% off", "Min spend $50", true, none, some "/modal/123"⟩ : RawOffer)].map
        (resolveOffer (fun _ => ModalOutcome.err "navigation timeout"))) = [] := by
  refine ⟨rfl, rfl, by decide, by decide⟩

/-- C3 (amended): offers lacking both a direct code and a reveal
reference always resolve to the sentinel and are excluded, as is every
offer whose reveal resolution degrades to the sentinel; every offer
whose resolution produces a real code is represented by a record with
that code (collisions on the key keep a single record); and no record
carries a code that did not come from an input offer's direct code or
its resolved reveal page. -/
theorem C3_amended_exclusion_and_provenance
    (domain : String) (offers : List RawOffer) (resolve : String → ModalOutcome) :
    (∀ o ∈ offers, o.directCode = none → o.revealRef = none →
      (resolveOffer resolve o).code = "AUTOMATIC") ∧
    (∀ r ∈ uniqueCoupons domain (offers.map (resolveOffer resolve)),
      r.code ≠ "AUTOMATIC") ∧
    (∀ o ∈ offers, (resolveOffer resolve o).code ≠ "AUTOMATIC" →
      ∃ r ∈ uniqueCoupons domain (offers.map (resolveOffer resolve)),
        r.code = (resolveOffer resolve o).code) ∧
    (∀ r ∈ uniqueCoupons domain (offers.map (resolveOffer resolve)),
      ∃ o ∈ offers,
        o.directCode = some r.code ∨
        (∃ url, o.revealRef = some url ∧ processModal (resolve url) = r.code)) := by
  refine ⟨?_, ?_, ?_, ?_⟩
  · intro o _ hdc href
    simp [resolveOffer, hdc, href]
  · intro r hr
    exact (uniqueCoupons_mem_shape hr).1
  · intro o ho hcode
    exact uniqueCoupons_complete (List.mem_map_of_mem _ ho) hcode
  · intro r hr
    obtain ⟨hcode, hdom, c, hc, hrc⟩ := uniqueCoupons_mem_shape hr
    obtain ⟨o, ho, rfl⟩ := List.mem_map.mp hc
    refine ⟨o, ho, ?_⟩
    have hrcode : r.code = (resolveOffer resolve o).code := by rw [hrc]; rfl
    rcases resolveOffer_code_cases resolve o with h | h | h
    · exact Or.inl (by rw [hrcode]; exact h)
    · exact absurd (hrcode.trans h) hcode
    · obtain ⟨url, hurl, hpm⟩ := h
      exact Or.inr ⟨url, hurl, by rw [hrcode]; exact hpm⟩

/-- Witness for C3 (amended): a no-code offer resolves to the sentinel,
and a sibling offer whose reveal resolves to SAVE20 is represented. -/
theorem C3_amended_exclusion_and_provenance_witness :
    (resolveOffer (fun _ => ModalOutcome.ok (some "SAVE20") none)
        (⟨1, "d", "t", true, none, none⟩ : RawOffer)).code = "AUTOMATIC" ∧
    (∃ r ∈ uniqueCoupons "acme.com"
        (([⟨1, "d", "t", true, none, none⟩,
           ⟨2, "20% off", "Min spend $50", true, none, some "/modal/123"⟩] :
            List RawOffer).map
          (resolveOffer (fun _ => ModalOutcome.ok (some "SAVE20") none))),
      r.code = (resolveOffer (fun _ => ModalOutcome.ok (some "SAVE20") none)
        (⟨2, "20% off", "Min spend $50", true, none, some "/modal/123"⟩ : RawOffer)).code) := by
  constructor
  · exact (C3_amended_exclusion_and_provenance "acme.com"
      [⟨1, "d", "t", true, none, none⟩,
       ⟨2, "20% off", "Min spend $50", true, none, some "/modal/123"⟩]
      (fun _ => ModalOutcome.ok (some "SAVE20") none)).1 _ (by decide) rfl rfl
  · exact (C3_amended_exclusion_and_provenance "acme.com"
      [⟨1, "d", "t", true, none, none⟩,
       ⟨2, "20% off", "Min spend $50", true, none, some "/modal/123"⟩]
      (fun _ => ModalOutcome.ok (some "SAVE20") none)).2.2.1 _ (by decide) (by decide)

/-- C4: a domain whose scrape always fails is attempted once and then
retried exactly domainRetries times — one fixed 2000 ms backoff before
each retry, so domainRetries backoffs in all — never domainRetries + 1
retries, and at least one retry when domainRetries > 0; the exhausted
loop returns the empty coupon list, which the orchestrator counts as a
failed domain. -/
theorem C4_retry_bound (domainRetries : Nat) :
    attemptCount (alwaysFailTrace domainRetries 0) = domainRetries + 1 ∧
    backoffCount (alwaysFailTrace domainRetries 0) = domainRetries ∧
    (0 < domainRetries → 0 < backoffCount (alwaysFailTrace domainRetries 0)) ∧
    (∀ e ∈ alwaysFailTrace domainRetries 0,
      ∀ ms, e = RetryEvent.backoff ms → ms = 2000) ∧
    alwaysFailResult domainRetries 0 = [] ∧
    outcomeSuccess (DomainOutcome.scraped (alwaysFailResult domainRetries 0)) = false := by
  obtain ⟨ha, hb, hm⟩ := alwaysFailTrace_spec domainRetries domainRetries 0 rfl
  have hres := alwaysFailResult_nil domainRetries domainRetries 0 rfl
  refine ⟨ha, hb, ?_, hm, hres, ?_⟩
  · intro h
    omega
  · rw [hres]
    rfl

/-- Witness for C4 at domainRetries = 2: three attempts, two backoffs
of 2000 ms each, and the failed result. -/
theorem C4_retry_bound_witness :
    attemptCount (alwaysFailTrace 2 0) = 2 + 1 ∧
    backoffCount (alwaysFailTrace 2 0) = 2 ∧
    0 < backoffCount (alwaysFailTrace 2 0) ∧
    (2000 : Nat) = 2000 ∧
    alwaysFailResult 2 0 = [] ∧
    outcomeSuccess (DomainOutcome.scraped (alwaysFailResult 2 0)) = false := by
  have htr : alwaysFailTrace 2 0 =
      [RetryEvent.attempt 0, RetryEvent.backoff 2000, RetryEvent.attempt 1,
       RetryEvent.backoff 2000, RetryEvent.attempt 2] := by
    rw [alwaysFailTrace, alwaysFailTrace, alwaysFailTrace]
    norm_num
  refine ⟨(C4_retry_bound 2).1, (C4_retry_bound 2).2.1,
    (C4_retry_bound 2).2.2.1 (by decide),
    (C4_retry_bound 2).2.2.2.1 (RetryEvent.backoff 2000) (by rw [htr]; decide) 2000 rfl,
    (C4_retry_bound 2).2.2.2.2.1, (C4_retry_bound 2).2.2.2.2.2⟩

/-- C5 counterexample: a run of runPartialScraper in which every
category lists zero domains reaches the final check with zero
successes and zero failures; zero domains succeeded across the entire
run, yet the runner exits normally (runner.js line 174 additionally
requires totalErrorCount > 0), refuting "fatal if and only if zero
domains succeeded" for that entry point. -/
theorem C5_counterexample :
    letterLoop [[], [], []] (fun _ => DomainOutcome.threw "unreachable") = (0, 0) ∧
    runnerExitCode 0 0 = 0 := by
  constructor
  · rfl
  · decide

/-- C5 (amended): main exits fatally exactly when zero domains
succeeded; runPartialScraper exits fatally exactly when zero domains
succeeded and at least one domain failed; in both entry points a run
with at least one successful domain exits normally regardless of how
many individual domains failed. -/
theorem C5_amended_exit_policy (outcomes : List DomainOutcome) :
    (mainExitCode (tally outcomes).1 = 1 ↔ (tally outcomes).1 = 0) ∧
    (runnerExitCode (tally outcomes).1 (tally outcomes).2 = 1 ↔
      ((tally outcomes).1 = 0 ∧ 0 < (tally outcomes).2)) ∧
    (0 < (tally outcomes).1 →
      mainExitCode (tally outcomes).1 = 0 ∧
      runnerExitCode (tally outcomes).1 (tally outcomes).2 = 0) := by
  refine ⟨?_, ?_, ?_⟩
  · by_cases hs : (tally outcomes).1 = 0 <;> simp [mainExitCode, hs]
  · by_cases hs : (tally outcomes).1 = 0
    · by_cases he : 0 < (tally outcomes).2 <;> simp [runnerExitCode, hs, he]
    · simp [runnerExitCode, hs]
  · intro h
    have hs : ¬ (tally outcomes).1 = 0 := by omega
    simp [mainExitCode, runnerExitCode, hs]

/-- Witness for C5 (amended): one successful domain makes both exit
decisions normal. -/
theorem C5_amended_exit_policy_witness :
    mainExitCode (tally [DomainOutcome.scraped [⟨1, "SAVE20", "d", "t", true⟩]]).1 = 0 ∧
    runnerExitCode (tally [DomainOutcome.scraped [⟨1, "SAVE20", "d", "t", true⟩]]).1
      (tally [DomainOutcome.scraped [⟨1, "SAVE20", "d", "t", true⟩]]).2 = 0 :=
  (C5_amended_exit_policy [DomainOutcome.scraped [⟨1, "SAVE20", "d", "t", true⟩]]).2.2
    (by decide)

/-- C6 counterexample: the domain extraction of scrapeDomains performs
no de-duplication, so a listing page that repeats the same store anchor
twice yields the same MerchantDomain twice, refuting the claimed
absence of duplicates. -/
theorem C6_counterexample :
    scrapeDomainsExtract [some "/site/acme.com", some "/site/acme.com"] =
      ["acme.com", "acme.com"] ∧
    ¬ (scrapeDomainsExtract [some "/site/acme.com", some "/site/acme.com"]).Nodup := by
  constructor
  · decide
  · decide

/-- C6 (amended): for every category page, listDomains (scrapeDomains)
returns no empty strings, and every returned entry is the
"/site/"-stripped href of some matched store anchor; no de-duplication
is performed, so duplicate anchors yield duplicate MerchantDomain
values. -/
theorem C6_amended_no_empty_domains (storeLinks : List (Option String)) :
    ∀ d ∈ scrapeDomainsExtract storeLinks,
      d ≠ "" ∧ ∃ href, some href ∈ storeLinks ∧ d = replaceFirst href "/site/" "" := by
  intro d hd
  rw [scrapeDomainsExtract_eq] at hd
  exact mem_scrapeDomainsAux hd

/-- Witness for C6 (amended) at a concrete listing page. -/
theorem C6_amended_no_empty_domains_witness :
    "acme.com" ≠ "" ∧
    ∃ href, some href ∈ [some "/site/acme.com"] ∧
      "acme.com" = replaceFirst href "/site/" "" :=
  C6_amended_no_empty_domains [some "/site/acme.com"] "acme.com" (by decide)

/-- C7: for every reveal reference, code resolution never fails its
caller: an internal error (navigation failure, selector timeout,
missing element) degrades to the sentinel placeholder for that offer —
the resolver is a total function whose error branch returns the
sentinel — the run still completes with that offer excluded from the
persisted set, and sibling offers of the same merchant whose
resolution produced a real code are persisted normally. -/
theorem C7_resolver_never_fails_caller
    (resolve : String → ModalOutcome) (domain : String) (offers : List RawOffer)
    (o : RawOffer) (url msg : String)
    (ho : o ∈ offers) (hdc : o.directCode = none) (href : o.revealRef = some url)
    (herr : resolve url = ModalOutcome.err msg) :
    (resolveOffer resolve o).code = "AUTOMATIC" ∧
    (∀ r ∈ uniqueCoupons domain (offers.map (resolveOffer resolve)),
      r.code ≠ "AUTOMATIC") ∧
    (∀ o' ∈ offers, (resolveOffer resolve o').code ≠ "AUTOMATIC" →
      ∃ r ∈ uniqueCoupons domain (offers.map (resolveOffer resolve)),
        r.code = (resolveOffer resolve o').code) := by
  refine ⟨?_, ?_, ?_⟩
  · simp [resolveOffer, hdc, href, herr, processModal]
  · intro r hr
    exact (uniqueCoupons_mem_shape hr).1
  · intro o' ho' hcode
    exact uniqueCoupons_complete (List.mem_map_of_mem _ ho') hcode

/-- Witness for C7: one offer's reveal fetch times out and degrades to
the sentinel while its sibling on the same merchant resolves to SAVE20
and is persisted. -/
theorem C7_resolver_never_fails_caller_witness :
    (resolveOffer
        (fun u => if u = "/modal/2" then ModalOutcome.ok (some "SAVE20") none
          else ModalOutcome.err "timeout")
        (⟨1, "10% off", "t1", false, none, some "/modal/1"⟩ : RawOffer)).code
      = "AUTOMATIC" ∧
    (∃ r ∈ uniqueCoupons "acme.com"
        (([⟨1, "10% off", "t1", false, none, some "/modal/1"⟩,
           ⟨2, "20% off", "t2", true, none, some "/modal/2"⟩] : List RawOffer).map
          (resolveOffer (fun u => if u = "/modal/2" then ModalOutcome.ok (some "SAVE20") none
            else ModalOutcome.err "timeout"))),
      r.code = (resolveOffer
        (fun u => if u = "/modal/2" then ModalOutcome.ok (some "SAVE20") none
          else ModalOutcome.err "timeout")
        (⟨2, "20% off", "t2", true, none, some "/modal/2"⟩ : RawOffer)).code) := by
  constructor
  · exact (C7_resolver_never_fails_caller
      (fun u => if u = "/modal/2" then ModalOutcome.ok (some "SAVE20") none
        else ModalOutcome.err "timeout")
      "acme.com"
      [⟨1, "10% off", "t1", false, none, some "/modal/1"⟩,
       ⟨2, "20% off", "t2", true, none, some "/modal/2"⟩]
      ⟨1, "10% off", "t1", false, none, some "/modal/1"⟩ "/modal/1" "timeout"
      (by decide) rfl rfl (by decide)).1
  · exact (C7_resolver_never_fails_caller
      (fun u => if u = "/modal/2" then ModalOutcome.ok (some "SAVE20") none
        else ModalOutcome.err "timeout")
      "acme.com"
      [⟨1, "10% off", "t1", false, none, some "/modal/1"⟩,
       ⟨2, "20% off", "t2", true, none, some "/modal/2"⟩]
      ⟨1, "10% off", "t1", false, none, some "/modal/1"⟩ "/modal/1" "timeout"
      (by decide) rfl rfl (by decide)).2.2 _ (by decide) (by decide)

/-- C8: for every category, a render failure during domain listing
makes scrapeDomains return the empty sequence rather than propagating
the error, and the orchestrator's letter loop then skips that category:
inserting the failed category anywhere in the run leaves the
success/failure tally unchanged, so the category is not treated as a
run failure. -/
theorem C8_listing_failure_skips_category
    (e : String) (scrape : String → DomainOutcome) (pre post : List (List String)) :
    scrapeDomainsRun (Except.error e) = [] ∧
    letterLoop (pre ++ [scrapeDomainsRun (Except.error e)] ++ post) scrape =
      letterLoop (pre ++ post) scrape := by
  refine ⟨rfl, ?_⟩
  have h0 : scrapeDomainsRun (Except.error e) = ([] : List String) := rfl
  rw [h0]
  unfold letterLoop
  simp [List.foldl_append]

/-- C9: in the de-duplication step, when several coupons for the same
domain share the same code, the persisted record's fields come from the
first occurrence of that code in the verified-first stable sort, so the
record's verified flag is true whenever any colliding coupon is
verified. -/
theorem C9_verified_first_tie_break (domain : String) (coupons : List Coupon)
    (r : DbRow) (hr : r ∈ uniqueCoupons domain coupons) :
    (∃ c, (sortedByVerified coupons).find? (fun c => c.code == r.code) = some c ∧
      r = mkRow domain c) ∧
    ((∃ c ∈ coupons, c.code = r.code ∧ c.verified = true) → r.verified = true) := by
  have hr' : r ∈ dedupAux domain (sortedByVerified coupons) [] := by
    rw [uniqueCoupons_eq_dedupAux] at hr
    exact hr
  have hfind := dedupAux_first_occurrence domain _ [] r hr'
  refine ⟨hfind, ?_⟩
  rintro ⟨c', hc', hcode', hver'⟩
  obtain ⟨c, hf, hrc⟩ := hfind
  have hc'f : c' ∈ coupons.filter (fun c => c.verified) :=
    List.mem_filter.mpr ⟨hc', by simp [hver']⟩
  have hsome : ((coupons.filter (fun c => c.verified)).find?
      (fun c => c.code == r.code)).isSome :=
    List.find?_isSome.mpr ⟨c', hc'f, by simp [hcode']⟩
  obtain ⟨y, hy⟩ := Option.isSome_iff_exists.mp hsome
  have happ : (sortedByVerified coupons).find? (fun c => c.code == r.code) = some y := by
    rw [sortedByVerified, List.find?_append, hy]
    rfl
  rw [happ] at hf
  have hcy : y = c := Option.some.inj hf
  have hyv : y.verified = true := by
    simpa using (List.mem_filter.mp (List.mem_of_find?_eq_some hy)).2
  rw [hrc, ← hcy]
  exact hyv

/-- Witness for C9: two coupons collide on SAVE20, one verified; the
emitted record is verified and built from the verified occurrence. -/
theorem C9_verified_first_tie_break_witness :
    (⟨"acme.com", "SAVE20", "20% off", "b", true⟩ : DbRow).verified = true :=
  (C9_verified_first_tie_break "acme.com"
    [⟨1, "SAVE20", "10% off", "a", false⟩, ⟨2, "SAVE20", "20% off", "b", true⟩]
    ⟨"acme.com", "SAVE20", "20% off", "b", true⟩ (by decide)).2
    ⟨⟨2, "SAVE20", "20% off", "b", true⟩, by decide, rfl, rfl⟩

/-- C10: a domain whose scrape completes without error but yields an
empty coupon list is counted as a failed domain by the success/failure
tally; consequently a run in which every domain renders successfully
but yields no coupons has zero successes, all domains counted failed,
and main takes the fatal exit. -/
theorem C10_empty_coupons_counted_failed (outcomes : List DomainOutcome)
    (h : ∀ o ∈ outcomes, o = DomainOutcome.scraped []) :
    outcomeSuccess (DomainOutcome.scraped []) = false ∧
    (tally outcomes).1 = 0 ∧
    (tally outcomes).2 = outcomes.length ∧
    mainExitCode (tally outcomes).1 = 1 := by
  have hfail : ∀ o ∈ outcomes, outcomeSuccess o = false := by
    intro o ho
    rw [h o ho]
    rfl
  have h1 : outcomes.filter (fun o => outcomeSuccess o) = [] := by
    rw [List.filter_eq_nil_iff]
    intro o ho
    simp [hfail o ho]
  have h2 : outcomes.filter (fun o => !outcomeSuccess o) = outcomes := by
    rw [List.filter_eq_self]
    intro o ho
    simp [hfail o ho]
  rw [tally_eq]
  exact ⟨rfl, by simp [h1], by simp [h2], by simp [h1, mainExitCode]⟩

/-- Witness for C10: a single errorless domain with zero coupons makes
the whole run fail fatally. -/
theorem C10_empty_coupons_counted_failed_witness :
    outcomeSuccess (DomainOutcome.scraped []) = false ∧
    (tally [DomainOutcome.scraped []]).1 = 0 ∧
    (tally [DomainOutcome.scraped []]).2 = [DomainOutcome.scraped []].length ∧
    mainExitCode (tally [DomainOutcome.scraped []]).1 = 1 :=
  C10_empty_coupons_counted_failed [DomainOutcome.scraped []] (by decide)

end Nectar
